import Mathlib

/-!
# A verification development for the EnhancedVSTHost plugin host

This file gives a shallow embedding in Lean 4 of the parts of the
EnhancedVSTHost C++ code base that its specification talks about, and proves
(or refutes) the specified properties against that embedding.

Embedding conventions:

* Wide strings (`std::wstring`) become `String`; audio samples (`float`)
  become `Int` — no claim below depends on floating-point arithmetic, only on
  which samples are copied or zeroed.
* Raw channel-pointer arrays (`float**`) become lists of buffer identifiers
  (`List Nat`) together with an explicit heap `Mem : Nat → List Int`, so that
  the pointer-equality test `inputs[ch] != outputs[ch]` in
  `PluginInstance::processReplacing` is modelled faithfully.
* Calls into foreign plugin binaries have no code in this repository; their
  behaviour is an explicit oracle parameter (`Vst2LoadOutcome`,
  `PluginCallBehavior`).  A trapped hardware fault (`__except` handler firing)
  is one oracle outcome.
* `std::unordered_map<int, unique_ptr<PluginInstance>>` becomes an association
  list `List (Nat × PluginInstance)`; `operator[]` insertion is
  replace-or-insert.
-/

/-- `EVH::PluginState` from EnhancedVSTHost.h. -/
inductive PluginState where
  | Unloaded
  | Loading
  | Loaded
  | Active
  | Bypassed
  | Error
  | Crashed
deriving DecidableEq, Repr

/-- `EVH::PluginType`.  The header shipped with the sources lists only
`VST3, Unknown`, but PluginInstance.cpp and PluginScanner.cpp both use
`EVH::PluginType::VST2`, so the constructor set used by the .cpp files is
modelled. -/
inductive PluginType where
  | VST2
  | VST3
  | Unknown
deriving DecidableEq, Repr

/-- `EVH::PluginInfo` from EnhancedVSTHost.h (the `categories` vector is
omitted; nothing reads it). -/
structure PluginInfo where
  path : String
  name : String
  vendor : String
  type : PluginType
  is64Bit : Bool
  hasCustomEditor : Bool
  numInputs : Nat
  numOutputs : Nat
  uniqueId : Nat
  isInstrument : Bool
  validated : Bool
  errorMsg : String
deriving DecidableEq, Repr

/-- `EVH::PluginInfo()` — the value-initialised record returned by
`EnhancedVSTHost::getPluginInfo` for an unknown ID: empty strings, zero
numbers, `false` flags.  (`type` value-initialises to enumerator 0; the claims
below do not depend on which constructor that is.) -/
def PluginInfo.valueInit : PluginInfo :=
  { path := ""
    name := ""
    vendor := ""
    type := PluginType.VST2
    is64Bit := false
    hasCustomEditor := false
    numInputs := 0
    numOutputs := 0
    uniqueId := 0
    isInstrument := false
    validated := false
    errorMsg := "" }

/-! ## Sample memory

The heap maps a buffer identifier (a pointer) to its current sample
contents.  `copyN`/`zeroFillN` model `std::copy_n` / `std::fill_n` over the
first `n` samples of a destination buffer. -/

def Mem : Type := Nat → List Int

/-- Write buffer `p` of the heap. -/
def memSet (m : Mem) (p : Nat) (v : List Int) : Mem :=
  fun q => if q = p then v else m q

/-- `std::copy_n(src, n, dst)` on the heap. -/
def copyN (m : Mem) (src dst : Nat) (n : Nat) : Mem :=
  memSet m dst ((m src).take n ++ (m dst).drop n)

/-- `std::fill_n(dst, n, 0.0f)` on the heap. -/
def zeroFillN (m : Mem) (dst : Nat) (n : Nat) : Mem :=
  memSet m dst (List.replicate n 0 ++ (m dst).drop n)

/-! ## PluginInstance (PluginInstance.cpp)

Native handles (`HMODULE moduleHandle`, `AEffect* effect`, the VST3
`component`/`processor` pair, `HWND editorWindow`) are modelled as `Bool`
null-ness flags. -/

structure PluginInstance where
  info : PluginInfo
  state : PluginState
  bypassed : Bool
  effect : Bool
  moduleHandle : Bool
  component : Bool
  editorWindow : Bool
deriving DecidableEq, Repr

/-- `PluginInstance::PluginInstance(info)` — member initialisers from the
header: state `Unloaded`, `bypassed` false, all handles null. -/
def PluginInstance.make (info : PluginInfo) : PluginInstance :=
  ⟨info, PluginState.Unloaded, false, false, false, false, false⟩

/-- What the foreign code reached from `PluginInstance::loadVST2` does:
it may produce a valid effect (`ok`), fail to load / resolve / validate
(`fail`), or raise a hardware-level fault trapped by the `__except` barrier
in `load()` (`seFault`). -/
inductive Vst2LoadOutcome where
  | ok
  | fail
  | seFault
deriving DecidableEq, Repr

/-- `PluginInstance::load()`.  Valid only from `Unloaded`; moves through
`Loading`; dispatches on `info.type`: `VST2` runs `loadVST2` (oracle),
`VST3` runs `loadVST3` — which is an unimplemented stub that always returns
`false` — and any other type leaves `success = false`.  A trapped fault or a
failure ends in `Error`; success ends in `Loaded`. -/
def PluginInstance.load (p : PluginInstance) (vst2 : Vst2LoadOutcome) :
    PluginInstance × Bool :=
  if p.state ≠ PluginState.Unloaded then
    (p, false)
  else
    match p.info.type with
    | PluginType.VST2 =>
        match vst2 with
        | Vst2LoadOutcome.ok =>
            ({ p with state := PluginState.Loaded, effect := true,
                      moduleHandle := true }, true)
        | Vst2LoadOutcome.fail => ({ p with state := PluginState.Error }, false)
        | Vst2LoadOutcome.seFault => ({ p with state := PluginState.Error }, false)
    | PluginType.VST3 => ({ p with state := PluginState.Error }, false)
    | PluginType.Unknown => ({ p with state := PluginState.Error }, false)

/-- `PluginInstance::unload()`.  Early-returns when already `Unloaded`;
otherwise closes any open editor and runs plugin-side cleanup inside a fault
barrier — both the normal path and the `__except` path null every native
handle — and finally sets `Unloaded`.  `cleanupFaults` is the oracle for
whether the plugin's own cleanup code faults; the second component reports
whether a plugin-side cleanup attempt was made at all. -/
def PluginInstance.unload (p : PluginInstance) (_cleanupFaults : Bool) :
    PluginInstance × Bool :=
  if p.state = PluginState.Unloaded then
    (p, false)
  else
    ({ p with state := PluginState.Unloaded, effect := false,
              moduleHandle := false, component := false,
              editorWindow := false }, true)

/-- `PluginInstance::suspend()` — dispatches `effMainsChanged 0` when an
effect is present and then sets `state = Loaded` unconditionally, with no
check of the current state. -/
def PluginInstance.suspend (p : PluginInstance) : PluginInstance :=
  { p with state := PluginState.Loaded }

/-- `PluginInstance::resume()` — dispatches `effMainsChanged 1` when an
effect is present and then sets `state = Active` unconditionally, with no
check of the current state. -/
def PluginInstance.resume (p : PluginInstance) : PluginInstance :=
  { p with state := PluginState.Active }

/-- Behaviour of one call into the plugin's processing routine: either it
returns normally having transformed the heap, or it raises a hardware fault
after partially scribbling the heap (`seFault g`: `g` is the state of memory
when the `__except` handler fires). -/
inductive PluginCallBehavior where
  | normal (f : Mem → Mem)
  | seFault (g : Mem → Mem)

/-- Result of `process` / `processReplacing`: the instance (its state may
have become `Crashed`), the heap, and whether the plugin's own routine was
invoked. -/
structure ProcResult where
  inst : PluginInstance
  mem : Mem
  pluginCalled : Bool

/-- One iteration `ch` of the pass-through loop in
`PluginInstance::processReplacing`:
`if (ch < numInputs && inputs[ch] != outputs[ch]) copy_n; else if (ch >= numInputs) fill_n 0`. -/
def passThroughChan (nI : Nat) (ins outs : List Nat) (n : Nat)
    (mem : Mem) (ch : Nat) : Mem :=
  if ch < nI then
    if ins.getD ch 0 ≠ outs.getD ch 0 then
      copyN mem (ins.getD ch 0) (outs.getD ch 0) n
    else
      mem
  else
    zeroFillN mem (outs.getD ch 0) n

/-- The whole pass-through loop `for (ch = 0; ch < numOutputs; ++ch)` of
`processReplacing`. -/
def passThroughCopy (nI nO : Nat) (ins outs : List Nat) (n : Nat)
    (mem : Mem) : Mem :=
  (List.range nO).foldl (passThroughChan nI ins outs n) mem

/-- One iteration of the pass-through loop in `PluginInstance::process`,
which copies without the pointer-equality test. -/
def passThroughChanUncond (nI : Nat) (ins outs : List Nat) (n : Nat)
    (mem : Mem) (ch : Nat) : Mem :=
  if ch < nI then
    copyN mem (ins.getD ch 0) (outs.getD ch 0) n
  else
    zeroFillN mem (outs.getD ch 0) n

/-- `PluginInstance::processReplacing(inputs, outputs, numSamples)`.
If the state is not `Active` or bypass is set, runs the pass-through loop and
makes no plugin call.  Otherwise invokes the plugin routine (`beh`); a
trapped fault sets `Crashed` and falls back to the same pass-through loop on
the post-fault heap.  Which VST2 entry point runs in the normal case
(`processReplacing` when `effFlagsCanReplacing` is set, else `process`) is
abstracted into the oracle `f`. -/
def PluginInstance.processReplacing (p : PluginInstance)
    (ins outs : List Nat) (n : Nat) (mem : Mem)
    (beh : PluginCallBehavior) : ProcResult :=
  if p.state ≠ PluginState.Active ∨ p.bypassed then
    ⟨p, passThroughCopy p.info.numInputs p.info.numOutputs ins outs n mem, false⟩
  else
    match beh with
    | PluginCallBehavior.normal f => ⟨p, f mem, true⟩
    | PluginCallBehavior.seFault g =>
        ⟨{ p with state := PluginState.Crashed },
         passThroughCopy p.info.numInputs p.info.numOutputs ins outs n (g mem),
         true⟩

/-- `PluginInstance::process(inputs, outputs, numSamples)` (the non-replacing
variant; same structure, unconditional copies in the pass-through loop). -/
def PluginInstance.procAccum (p : PluginInstance)
    (ins outs : List Nat) (n : Nat) (mem : Mem)
    (beh : PluginCallBehavior) : ProcResult :=
  if p.state ≠ PluginState.Active ∨ p.bypassed then
    ⟨p, (List.range p.info.numOutputs).foldl
          (passThroughChanUncond p.info.numInputs ins outs n) mem, false⟩
  else
    match beh with
    | PluginCallBehavior.normal f => ⟨p, f mem, true⟩
    | PluginCallBehavior.seFault g =>
        ⟨{ p with state := PluginState.Crashed },
         (List.range p.info.numOutputs).foldl
           (passThroughChanUncond p.info.numInputs ins outs n) (g mem),
         true⟩

/-! ## The public interface of a `PluginInstance` as one operation type

Used to state what the set of public operations can do to the lifecycle
state.  Read-only accessors (`getState`, `getInfo`, `isBypassed`,
`hasEditor`, the parameter getters) do not appear since they cannot change
anything; `setParameter` appears because it is a mutating entry point even
though it only forwards to the plugin under a bounds check. -/
inductive InstOp where
  | loadOp (vst2 : Vst2LoadOutcome)
  | unloadOp (cleanupFaults : Bool)
  | processOp (ins outs : List Nat) (n : Nat) (mem : Mem) (beh : PluginCallBehavior)
  | processReplacingOp (ins outs : List Nat) (n : Nat) (mem : Mem) (beh : PluginCallBehavior)
  | suspendOp
  | resumeOp
  | setBypassOp (b : Bool)
  | openEditorOp (windowCreated : Bool)
  | closeEditorOp
  | setParameterOp (index : Int) (value : Int)

/-- Apply a public operation to an instance, keeping only the instance
component of the result. -/
def applyInstOp (op : InstOp) (p : PluginInstance) : PluginInstance :=
  match op with
  | InstOp.loadOp vst2 => (p.load vst2).1
  | InstOp.unloadOp cf => (p.unload cf).1
  | InstOp.processOp ins outs n mem beh => (p.procAccum ins outs n mem beh).inst
  | InstOp.processReplacingOp ins outs n mem beh =>
      (p.processReplacing ins outs n mem beh).inst
  | InstOp.suspendOp => p.suspend
  | InstOp.resumeOp => p.resume
  | InstOp.setBypassOp b => { p with bypassed := b }
  | InstOp.openEditorOp windowCreated =>
      -- openEditor: early-returns unless hasCustomEditor and no window yet;
      -- creates the window (success per oracle) when an effect is present;
      -- never touches `state`.
      if p.info.hasCustomEditor ∧ ¬ p.editorWindow ∧ p.effect ∧ windowCreated then
        { p with editorWindow := true }
      else
        p
  | InstOp.closeEditorOp => { p with editorWindow := false }
  | InstOp.setParameterOp _ _ => p

/-! ## Path helpers (shlwapi)

`PathFindExtensionW` / `PathFindFileNameW` / `PathRemoveExtensionW` as used by
`EnhancedVSTHost::validatePlugin` and `PluginScanner::scanPluginInProcess`.
Both call sites immediately lower-case the extension with
`std::transform(..., ::tolower)`, so the lower-casing is built in here. -/

/-- Suffix of `l` strictly after the last occurrence of `sep` (all of `l`
when `sep` does not occur). -/
def afterLastSep (sep : Char) (l : List Char) : List Char :=
  (l.reverse.takeWhile (fun c => c != sep)).reverse

/-- `PathFindFileNameW`: the part of the path after the last backslash. -/
def pathFileName (s : String) : List Char :=
  afterLastSep '\\' s.data

/-- `PathFindExtensionW` + `::tolower`: the dot-prefixed extension of the
file-name part, lower-cased; empty when the file name has no dot. -/
def pathExtensionLower (s : String) : String :=
  let fn := pathFileName s
  if fn.contains '.' then
    String.mk (('.' :: afterLastSep '.' fn).map Char.toLower)
  else
    ""

/-- `PathFindFileNameW` followed by `PathRemoveExtensionW`: the file name
without its extension (used to derive the display name during a scan). -/
def pathFileNameNoExt (s : String) : String :=
  let fn := pathFileName s
  if fn.contains '.' then
    String.mk (((fn.reverse.dropWhile (fun c => c != '.')).drop 1).reverse)
  else
    String.mk fn

/-! ## The file system, as seen through the Win32 calls the code makes -/

structure FileSystem where
  /-- `PathFileExistsW`. -/
  fileExists : String → Bool
  /-- `LoadLibraryExW(path, DONT_RESOLVE_DLL_REFERENCES | LOAD_LIBRARY_AS_DATAFILE)`
  succeeds (the corruption check used by both `validatePlugin` and
  `scanPluginInProcess`). -/
  moduleLoadable : String → Bool

/-- `EnhancedVSTHost::validatePlugin(path)`: the file must exist, carry a
`.dll` or `.vst3` extension (case-insensitive), and load as a data file. -/
def validatePlugin (fs : FileSystem) (path : String) : Bool :=
  if !(fs.fileExists path) then
    false
  else if pathExtensionLower path ≠ ".dll" ∧ pathExtensionLower path ≠ ".vst3" then
    false
  else
    fs.moduleLoadable path

/-! ## PluginScanner (PluginScanner.cpp) -/

/-- Observable actions of a directory scan. -/
inductive ScanEvent where
  | progressReport (current total : Nat) (path : String)
  | inProcessScan (path : String)
  | workerSpawn (path : String)
  | reaperSweep
deriving DecidableEq, Repr

/-- `PluginScanner::scanPluginInProcess(path, info)`.  Despite its
surroundings this routine performs the scan inside the host process: it
fills `info` from the path and the defaults, and validates by attempting
`LoadLibraryExW` as a data file.  It spawns no process. -/
def scanPluginInProcess (fs : FileSystem) (path : String) :
    Bool × PluginInfo :=
  let info0 := { PluginInfo.valueInit with path := path, validated := false }
  let ext := pathExtensionLower path
  if ext = ".vst3" ∨ ext = ".dll" then
    let ty := if ext = ".vst3" then PluginType.VST3 else PluginType.Unknown
    let info1 := { info0 with
        type := ty
        name := pathFileNameNoExt path
        vendor := "Unknown"
        is64Bit := true        -- sizeof(void*) == 8 on the 64-bit host build
        hasCustomEditor := true
        numInputs := 2
        numOutputs := 2
        uniqueId := 0
        isInstrument := false }
    if fs.moduleLoadable path then
      (true, { info1 with validated := true })
    else
      (false, { info1 with errorMsg := "Failed to load plugin module" })
  else
    (false, info0)

/-- A `PluginScanner::ScanJob` (worker handle abstracted away; the start time
is a millisecond timestamp of the steady clock). -/
structure ScanJob where
  path : String
  startTime : Nat
deriving DecidableEq, Repr

/-- `PluginScanner::terminateHungProcesses` at steady-clock time `now`:
every job whose elapsed time exceeds `EVH::MAX_PLUGIN_SCAN_TIME_MS = 5000`
is force-terminated and removed; the rest are kept. -/
def terminateHungProcesses (now : Nat) (jobs : List ScanJob) : List ScanJob :=
  jobs.filter (fun j => !(decide (5000 < now - j.startTime)))

/-- Result of `PluginScanner::scanDirectory` over the (extension-filtered)
candidate files of a directory tree, with its observable event trace. -/
structure ScanOutcome where
  found : List PluginInfo
  events : List ScanEvent
deriving Repr

/-- The body of the per-file loop of `scanDirectory`: report progress, scan
the file in-process, record a validated descriptor, and run the hung-job
reaper on every tenth file. -/
def scanDirStep (fs : FileSystem) (total : Nat)
    (acc : List PluginInfo × List ScanEvent × Nat) (path : String) :
    List PluginInfo × List ScanEvent × Nat :=
  let (found, evs, current0) := acc
  let current := current0 + 1
  let evs1 := evs ++ [ScanEvent.progressReport current total path,
                      ScanEvent.inProcessScan path]
  let (ok, info) := scanPluginInProcess fs path
  let found1 := if ok then found ++ [info] else found
  let evs2 := if current % 10 = 0 then evs1 ++ [ScanEvent.reaperSweep] else evs1
  (found1, evs2, current)

/-- `PluginScanner::scanDirectory(path, onPluginFound, onProgress)`:
`files` is the list of `.dll`/`.vst3` files produced by the recursive
directory walk.  Each file gets a progress report and an **in-process** scan;
validated files are reported through `onPluginFound`; every 10 files (and
once at the end) the hung-job reaper runs. -/
def scanDirectory (fs : FileSystem) (files : List String) : ScanOutcome :=
  let r := files.foldl (scanDirStep fs files.length) ([], [], 0)
  ⟨r.1, r.2.1 ++ [ScanEvent.reaperSweep]⟩

/-! ## EnhancedVSTHost (EnhancedVSTHost.cpp) -/

/-- The plugin-management state of `EnhancedVSTHost`:
`loadedPlugins` (unordered_map keyed by plugin ID), `pluginChain`,
`nextPluginId` (initialised to 1), and the blacklist set. -/
structure HostState where
  loadedPlugins : List (Nat × PluginInstance)
  pluginChain : List Nat
  nextPluginId : Nat
  blacklisted : List String
deriving DecidableEq, Repr

/-- Host state after `initialize` with blacklist `bl` and nothing loaded. -/
def initialHost (bl : List String) : HostState :=
  ⟨[], [], 1, bl⟩

/-- `unordered_map::erase` by key. -/
def mapErase (m : List (Nat × PluginInstance)) (k : Nat) :
    List (Nat × PluginInstance) :=
  m.filter (fun e => e.1 != k)

/-- `unordered_map::operator[] =` (replace-or-insert; keys stay unique). -/
def mapInsert (m : List (Nat × PluginInstance)) (k : Nat)
    (v : PluginInstance) : List (Nat × PluginInstance) :=
  (k, v) :: mapErase m k

/-- In-place mutation of the instance stored under key `k` (the C++ map holds
the instance by pointer, so `processReplacing` mutates it in place). -/
def mapUpdate (m : List (Nat × PluginInstance)) (k : Nat)
    (v : PluginInstance) : List (Nat × PluginInstance) :=
  m.map (fun e => if e.1 = k then (k, v) else e)

/-- Observable actions of `EnhancedVSTHost::loadPlugin`. -/
inductive LoadEvent where
  | loadAttempt
  | idAssigned (id : Nat)
deriving DecidableEq, Repr

structure LoadResult where
  host : HostState
  /-- The `bool` that `loadPlugin` returns. -/
  ok : Bool
  events : List LoadEvent
deriving Repr

/-- `EnhancedVSTHost::loadPlugin(path)`.  Checks the blacklist, then
`validatePlugin` (existence, extension, corruption), then scans the file
in-process; constructs a `PluginInstance`, calls `load()` (`vst2` is the
oracle for the foreign code, reachable only for `PluginType.VST2`), and on
success stores the instance under `nextPluginId++`.  The function returns a
`bool`; the assigned ID (recorded as an event here) is not returned to the
caller. -/
def hostLoadPlugin (s : HostState) (fs : FileSystem) (vst2 : Vst2LoadOutcome)
    (path : String) : LoadResult :=
  if s.blacklisted.contains path then
    ⟨s, false, []⟩
  else if ¬ validatePlugin fs path then
    ⟨s, false, []⟩
  else
    match scanPluginInProcess fs path with
    | (false, _) => ⟨s, false, []⟩
    | (true, info) =>
        let inst := PluginInstance.make info
        let r := inst.load vst2
        if ¬ r.2 then
          ⟨s, false, [LoadEvent.loadAttempt]⟩
        else
          let pid := s.nextPluginId
          ⟨{ s with nextPluginId := s.nextPluginId + 1,
                    loadedPlugins := mapInsert s.loadedPlugins pid r.1 },
           true, [LoadEvent.loadAttempt, LoadEvent.idAssigned pid]⟩

/-- `EnhancedVSTHost::unloadPlugin(pluginId)`: if the ID is in the map, the
instance is unloaded (`cf` is the cleanup-fault oracle) and erased; then the
first occurrence of the ID is removed from the chain. -/
def hostUnloadPlugin (s : HostState) (pid : Nat) (cf : Bool) : HostState :=
  let m :=
    match s.loadedPlugins.lookup pid with
    | some inst =>
        let _ := inst.unload cf
        mapErase s.loadedPlugins pid
    | none => s.loadedPlugins
  { s with loadedPlugins := m, pluginChain := s.pluginChain.erase pid }

/-- `EnhancedVSTHost::unloadAllPlugins`. -/
def hostUnloadAll (s : HostState) : HostState :=
  { s with loadedPlugins := [], pluginChain := [] }

/-- `EnhancedVSTHost::addPluginToChain(pluginId)`: appended only when loaded
and not already in the chain. -/
def hostAddToChain (s : HostState) (pid : Nat) : HostState :=
  if (s.loadedPlugins.lookup pid).isSome && !(s.pluginChain.contains pid) then
    { s with pluginChain := s.pluginChain ++ [pid] }
  else
    s

/-- `EnhancedVSTHost::removePluginFromChain(pluginId)`. -/
def hostRemoveFromChain (s : HostState) (pid : Nat) : HostState :=
  { s with pluginChain := s.pluginChain.erase pid }

/-- `EnhancedVSTHost::movePluginInChain(pluginId, newPosition)`: erase, then
insert at the position when `0 <= newPosition <= size`, else append. -/
def hostMoveInChain (s : HostState) (pid : Nat) (newPosition : Int) : HostState :=
  if s.pluginChain.contains pid then
    let c := s.pluginChain.erase pid
    if 0 ≤ newPosition ∧ newPosition ≤ (c.length : Int) then
      { s with pluginChain := c.insertIdx newPosition.toNat pid }
    else
      { s with pluginChain := c ++ [pid] }
  else
    s

/-- `EnhancedVSTHost::getPluginInfo(pluginId)` (a `const` member): the stored
instance's info, or a value-initialised `PluginInfo` when the ID is unknown;
the host state is returned unchanged to reflect const-ness. -/
def hostGetPluginInfo (s : HostState) (pid : Nat) : PluginInfo × HostState :=
  match s.loadedPlugins.lookup pid with
  | some inst => (inst.info, s)
  | none => (PluginInfo.valueInit, s)

/-! ## One audio cycle (the callback lambda installed by `startAudio`)

The lambda clears the two output channels, copies the two input channels
over them, and then runs the chain in order, calling
`processReplacing(outputs, outputs, numSamples)` for every chain entry that
resolves and is not bypassed.  The surrounding `catch (const std::exception&)`
cannot fire: `processReplacing` traps hardware faults with `__try/__except`
internally and returns normally, and it contains no C++ `throw` (the project
compiles with `/EHsc`, under which a structured exception would not be
caught either).  `handlePluginCrash` is therefore unreachable from this
lambda, so the model emits no crash notification and never edits the
chain. -/

structure CycleResult where
  host : HostState
  mem : Mem
  /-- Invocations of the crash callback `(pluginId, pluginName)`. -/
  crashNotifs : List (Nat × String)
  /-- Plugins whose own processing routine was actually invoked. -/
  pluginRoutineCalls : List Nat

/-- One chain entry of the audio-callback loop. -/
def processChainStep (beh : Nat → PluginCallBehavior) (outs : List Nat)
    (n : Nat) (st : List (Nat × PluginInstance) × Mem × List Nat)
    (pid : Nat) : List (Nat × PluginInstance) × Mem × List Nat :=
  let (m, mem, calls) := st
  match m.lookup pid with
  | none => (m, mem, calls)
  | some inst =>
      if inst.bypassed then
        (m, mem, calls)
      else
        let r := inst.processReplacing outs outs n mem (beh pid)
        (mapUpdate m pid r.inst, r.mem,
         calls ++ (if r.pluginCalled then [pid] else []))

/-- The audio-callback lambda of `EnhancedVSTHost::startAudio` for one cycle:
`ins`/`outs` are the two input / two output channel pointers handed in by the
engine, `n` the sample count, `beh` the per-plugin foreign-code oracle for
this cycle. -/
def audioCycle (s : HostState) (beh : Nat → PluginCallBehavior)
    (ins outs : List Nat) (n : Nat) (mem : Mem) : CycleResult :=
  let o0 := outs.getD 0 0
  let o1 := outs.getD 1 0
  let mem1 := zeroFillN (zeroFillN mem o0 n) o1 n
  let mem2 := copyN (copyN mem1 (ins.getD 0 0) o0 n) (ins.getD 1 0) o1 n
  let r := s.pluginChain.foldl (processChainStep beh outs n)
      (s.loadedPlugins, mem2, [])
  ⟨{ s with loadedPlugins := r.1 }, r.2.1, [], r.2.2⟩

/-- The host states reachable by the public chain-management operations,
starting from an initialised host. -/
inductive Reachable : HostState → Prop where
  | init (bl : List String) : Reachable (initialHost bl)
  | load (s : HostState) (fs : FileSystem) (vst2 : Vst2LoadOutcome)
      (path : String) : Reachable s → Reachable (hostLoadPlugin s fs vst2 path).host
  | unload (s : HostState) (pid : Nat) (cf : Bool) :
      Reachable s → Reachable (hostUnloadPlugin s pid cf)
  | unloadAll (s : HostState) : Reachable s → Reachable (hostUnloadAll s)
  | add (s : HostState) (pid : Nat) : Reachable s → Reachable (hostAddToChain s pid)
  | remove (s : HostState) (pid : Nat) :
      Reachable s → Reachable (hostRemoveFromChain s pid)
  | move (s : HostState) (pid : Nat) (newPosition : Int) :
      Reachable s → Reachable (hostMoveInChain s pid newPosition)

/-- The chain well-formedness invariant of the specification: every chain
entry resolves in the instance map, and the chain holds no duplicates. -/
def ChainOK (s : HostState) : Prop :=
  (∀ pid ∈ s.pluginChain, (s.loadedPlugins.lookup pid).isSome) ∧
    s.pluginChain.Nodup

/-! ## PluginBridge32 (HelperComponents.cpp) -/

/-- The handle state of `PluginBridge32` (`bridgeProcess`, `commandPipe`,
`dataPipe`; handles modelled as numbers, null as `none`). -/
structure BridgeState where
  bridgeProcess : Option Nat
  commandPipe : Option Nat
  dataPipe : Option Nat
deriving DecidableEq, Repr

/-- Observable actions of the bridge. -/
inductive BridgeEvent where
  | cmdWritten (cmd : String)
  | waitForExit (ms : Nat)
  | forceTerminated
  | processHandleClosed
  | pipeHandleClosed (h : Nat)
deriving DecidableEq, Repr

/-- `PluginBridge32::sendCommand(cmd)`: fails when the command pipe is null;
otherwise writes the command with a trailing newline. -/
def bridgeSendCommand (b : BridgeState) (cmd : String) :
    Bool × List BridgeEvent :=
  match b.commandPipe with
  | none => (false, [])
  | some _ => (true, [BridgeEvent.cmdWritten (cmd ++ "\n")])

/-- `PluginBridge32::shutdown()`: when a helper process exists, send `EXIT`,
wait up to 5000 ms for it to exit (`exitsWithinGrace` is the helper's
behaviour), force-terminate on timeout, close and null the process handle;
then close and null each pipe handle that is still open. -/
def bridgeShutdown (b : BridgeState) (exitsWithinGrace : Bool) :
    BridgeState × List BridgeEvent :=
  let procEvents :=
    match b.bridgeProcess with
    | some _ =>
        (bridgeSendCommand b "EXIT").2 ++ [BridgeEvent.waitForExit 5000] ++
          (if exitsWithinGrace then [] else [BridgeEvent.forceTerminated]) ++
          [BridgeEvent.processHandleClosed]
    | none => []
  let cmdEvents :=
    match b.commandPipe with
    | some h => [BridgeEvent.pipeHandleClosed h]
    | none => []
  let dataEvents :=
    match b.dataPipe with
    | some h => [BridgeEvent.pipeHandleClosed h]
    | none => []
  (⟨none, none, none⟩, procEvents ++ cmdEvents ++ dataEvents)

/-! ## Concrete example values used by witnesses and counterexamples -/

/-- A file system on which every path exists and loads cleanly. -/
def fsYes : FileSystem := ⟨fun _ => true, fun _ => true⟩

/-- A file system on which no path exists. -/
def fsNo : FileSystem := ⟨fun _ => false, fun _ => false⟩

/-- Descriptor of a small stereo effect used in the examples. -/
def infoEx : PluginInfo :=
  { PluginInfo.valueInit with
      path := "C:\\Plugins\\Gain.dll"
      name := "Gain"
      type := PluginType.VST2
      numInputs := 2
      numOutputs := 2
      validated := true }

/-- An instance of `infoEx` that has crashed during processing. -/
def crashedInstEx : PluginInstance :=
  ⟨infoEx, PluginState.Crashed, false, true, true, false, false⟩

/-- An active, non-bypassed instance of `infoEx`. -/
def activeInstEx : PluginInstance :=
  ⟨infoEx, PluginState.Active, false, true, true, false, false⟩

/-- A bypassed instance of `infoEx`. -/
def bypassedInstEx : PluginInstance :=
  ⟨infoEx, PluginState.Active, true, true, true, false, false⟩

/-- A host with the single plugin `1` loaded (active) and in the chain. -/
def hostEx : HostState :=
  ⟨[(1, activeInstEx)], [1], 2, []⟩

/-- A heap of four distinct 4-sample buffers: two input channels (0, 1) and
two output channels (2, 3). -/
def memEx : Mem := fun p =>
  if p = 0 then [10, 11, 12, 13]
  else if p = 1 then [20, 21, 22, 23]
  else if p = 2 then [0, 0, 0, 0]
  else if p = 3 then [0, 0, 0, 0]
  else []

/-- Foreign-code oracle under which every plugin call raises a trapped
hardware fault without touching memory first. -/
def faultBehEx : Nat → PluginCallBehavior := fun _ => PluginCallBehavior.seFault id

/-!
# Theorems

Shared helper lemmas first, then one theorem per claim (with witnesses and
counterexamples where required).
-/

/-! ## Heap helper lemmas -/

theorem memSet_same (m : Mem) (p : Nat) (v : List Int) : memSet m p v p = v := by
  simp [memSet]

theorem memSet_other (m : Mem) (p : Nat) (v : List Int) (q : Nat) (h : q ≠ p) :
    memSet m p v q = m q := by
  simp [memSet, h]

/-- A pass-through iteration for channel `ch` writes only the buffer
`outs.getD ch 0`. -/
theorem passThroughChan_other (nI : Nat) (ins outs : List Nat) (n : Nat)
    (mem : Mem) (ch : Nat) (p : Nat) (hp : p ≠ outs.getD ch 0) :
    passThroughChan nI ins outs n mem ch p = mem p := by
  unfold passThroughChan copyN zeroFillN
  split
  · split
    · exact memSet_other _ _ _ _ hp
    · rfl
  · exact memSet_other _ _ _ _ hp

/-- Folding pass-through iterations over channels `L` leaves every buffer
not written by any of them untouched. -/
theorem foldl_passThroughChan_other (nI : Nat) (ins outs : List Nat) (n : Nat)
    (L : List Nat) (mem : Mem) (p : Nat)
    (h : ∀ ch ∈ L, p ≠ outs.getD ch 0) :
    L.foldl (passThroughChan nI ins outs n) mem p = mem p := by
  induction L generalizing mem with
  | nil => rfl
  | cons c cs ih =>
      rw [List.foldl_cons,
          ih _ (fun ch hch => h ch (List.mem_cons_of_mem _ hch)),
          passThroughChan_other _ _ _ _ _ _ _ (h c (List.mem_cons_self _ _))]

/-- What a pass-through iteration writes to its own output buffer. -/
theorem passThroughChan_self (nI : Nat) (ins outs : List Nat) (n : Nat)
    (fm : Mem) (ch : Nat) :
    passThroughChan nI ins outs n fm ch (outs.getD ch 0) =
      if ch < nI then
        (if ins.getD ch 0 ≠ outs.getD ch 0
         then (fm (ins.getD ch 0)).take n ++ (fm (outs.getD ch 0)).drop n
         else fm (outs.getD ch 0))
      else
        List.replicate n 0 ++ (fm (outs.getD ch 0)).drop n := by
  by_cases h1 : ch < nI
  · by_cases h2 : ins.getD ch 0 ≠ outs.getD ch 0
    · simp only [passThroughChan, copyN, if_pos h1, if_pos h2, memSet_same]
    · simp only [passThroughChan, if_pos h1, if_neg h2]
  · simp only [passThroughChan, zeroFillN, if_neg h1, memSet_same]

theorem take_append_take (a b : List Int) (n : Nat) (h : n ≤ a.length) :
    (a.take n ++ b).take n = a.take n := by
  rw [List.take_append_eq_append_take]
  have hl : (a.take n).length = n := by
    rw [List.length_take]; omega
  rw [hl, Nat.sub_self, List.take_zero, List.append_nil, List.take_take,
      Nat.min_self]

theorem take_append_replicate (b : List Int) (n : Nat) :
    (List.replicate n (0 : Int) ++ b).take n = List.replicate n 0 := by
  rw [List.take_append_eq_append_take, List.length_replicate, Nat.sub_self,
      List.take_zero, List.append_nil, List.take_replicate, Nat.min_self]

/-- The pass-through loop, channel by channel: under well-formed channel
pointers (no cross-channel aliasing; an input may alias the same-index
output, which is exactly the in-place call made by the audio callback) and
buffers holding at least `n` samples, every output channel with a matching
input ends up holding that input's first `n` samples, and every other output
channel ends up zeroed. -/
theorem passThroughCopy_channel (nI nO : Nat) (ins outs : List Nat) (n : Nat)
    (mem : Mem)
    (hio : ∀ i j, i < nI → j < nO → i ≠ j → ins.getD i 0 ≠ outs.getD j 0)
    (hoo : ∀ i j, i < nO → j < nO → i ≠ j → outs.getD i 0 ≠ outs.getD j 0)
    (hlen : ∀ i, i < nI → n ≤ (mem (ins.getD i 0)).length)
    (ch : Nat) (hch : ch < nO) :
    (ch < nI →
      (passThroughCopy nI nO ins outs n mem (outs.getD ch 0)).take n
        = (mem (ins.getD ch 0)).take n) ∧
    (nI ≤ ch →
      (passThroughCopy nI nO ins outs n mem (outs.getD ch 0)).take n
        = List.replicate n 0) := by
  unfold passThroughCopy
  obtain ⟨k, hk⟩ : ∃ k, nO = (ch + 1) + k := ⟨nO - (ch + 1), by omega⟩
  subst hk
  rw [List.range_add, List.foldl_append]
  -- the iterations after channel `ch` write other buffers only
  rw [foldl_passThroughChan_other _ _ _ _ _ _ _
      (by
        intro e he
        simp only [List.mem_map, List.mem_range] at he
        obtain ⟨i, hi, rfl⟩ := he
        exact (hoo (ch + 1 + i) ch (by omega) (by omega) (by omega)).symm)]
  rw [List.range_succ, List.foldl_append, List.foldl_cons, List.foldl_nil]
  -- the iterations before channel `ch` do not write `outs.getD ch 0`
  have hfo : (List.range ch).foldl (passThroughChan nI ins outs n) mem
      (outs.getD ch 0) = mem (outs.getD ch 0) := by
    apply foldl_passThroughChan_other
    intro e he
    simp only [List.mem_range] at he
    exact (hoo e ch (by omega) (by omega) (by omega)).symm
  rw [passThroughChan_self]
  constructor
  · intro hchI
    -- nor do they write the input buffer of channel `ch`
    have hfi : (List.range ch).foldl (passThroughChan nI ins outs n) mem
        (ins.getD ch 0) = mem (ins.getD ch 0) := by
      apply foldl_passThroughChan_other
      intro e he
      simp only [List.mem_range] at he
      exact (hio ch e hchI (by omega) (by omega))
    rw [if_pos hchI]
    by_cases heq : ins.getD ch 0 ≠ outs.getD ch 0
    · rw [if_pos heq, hfi]
      exact take_append_take _ _ _ (hlen ch hchI)
    · rw [if_neg heq, hfo, not_ne_iff.mp heq]
  · intro hchI
    rw [if_neg (by omega)]
    exact take_append_replicate _ _

/-! ## C8 — unload() is idempotent -/

/-- C8: `unload()` is idempotent: whatever the starting state and whether or
not plugin-side cleanup faults, the state is `Unloaded` after the first call,
a second call changes nothing, and the second call makes no plugin-side
cleanup attempt. -/
theorem unload_idempotent (p : PluginInstance) (cf1 cf2 : Bool) :
    (p.unload cf1).1.state = PluginState.Unloaded ∧
    ((p.unload cf1).1.unload cf2).1 = (p.unload cf1).1 ∧
    ((p.unload cf1).1.unload cf2).2 = false := by
  unfold PluginInstance.unload
  by_cases h : p.state = PluginState.Unloaded <;> simp [h]

/-! ## C6 — is Crashed absorbing? -/

/-- C6 counterexample: `resume()` is a public operation other than `unload()`
that moves a `Crashed` instance straight back to `Active` — the state does
not stay `Crashed`. -/
theorem resume_reactivates_crashed :
    (applyInstOp InstOp.resumeOp crashedInstEx).state = PluginState.Active ∧
    PluginState.Active ≠ PluginState.Crashed := by
  decide

/-- C6 amended: `Crashed` is preserved by every public operation except
`unload()` (which yields `Unloaded`), `suspend()` (which unconditionally sets
`Loaded`) and `resume()` (which unconditionally sets `Active`); in particular
`load()` from `Crashed` fails without a state change and processing calls
leave `Crashed` untouched, so nothing reactivates a crashed plugin other
than an explicit `resume()`/`suspend()`. -/
theorem crashed_preserved_outside_lifecycle_calls (p : PluginInstance)
    (op : InstOp) (hc : p.state = PluginState.Crashed)
    (hu : ∀ cf, op ≠ InstOp.unloadOp cf)
    (hs : op ≠ InstOp.suspendOp)
    (hr : op ≠ InstOp.resumeOp) :
    (applyInstOp op p).state = PluginState.Crashed := by
  cases op with
  | loadOp vst2 =>
      simp only [applyInstOp]
      simp [PluginInstance.load, hc]
  | unloadOp cf => exact absurd rfl (hu cf)
  | processOp ins outs n mem beh =>
      simp only [applyInstOp]
      simp [PluginInstance.procAccum, hc]
  | processReplacingOp ins outs n mem beh =>
      simp only [applyInstOp]
      simp [PluginInstance.processReplacing, hc]
  | suspendOp => exact absurd rfl hs
  | resumeOp => exact absurd rfl hr
  | setBypassOp b =>
      simp only [applyInstOp]
      exact hc
  | openEditorOp windowCreated =>
      simp only [applyInstOp]
      split
      · exact hc
      · exact hc
  | closeEditorOp =>
      simp only [applyInstOp]
      exact hc
  | setParameterOp index value =>
      simp only [applyInstOp]
      exact hc

/-- Witness for the amended C6 theorem at a concrete crashed instance and a
concrete non-lifecycle operation. -/
theorem crashed_preserved_outside_lifecycle_calls_witness :
    (applyInstOp (InstOp.setBypassOp true) crashedInstEx).state
      = PluginState.Crashed := by
  exact crashed_preserved_outside_lifecycle_calls crashedInstEx
    (InstOp.setBypassOp true) (by decide)
    (fun cf h => InstOp.noConfusion h)
    (fun h => InstOp.noConfusion h)
    (fun h => InstOp.noConfusion h)

/-! ## C2 — bypass / non-Active processReplacing is pure pass-through -/

/-- C2: whenever the instance's state is not `Active` or its bypass flag is
set, `processReplacing` makes no call into the plugin's code, and — for
well-formed channel pointers (no cross-channel aliasing; an input aliasing
its same-index output is allowed and is the call shape the audio callback
uses) and input buffers of at least `n` samples — every output channel with
a matching input channel holds a copy of that input's first `n` samples and
every output channel without one is zero-filled. -/
theorem processReplacing_bypass_is_passthrough (p : PluginInstance)
    (ins outs : List Nat) (n : Nat) (mem : Mem) (beh : PluginCallBehavior)
    (hbp : p.state ≠ PluginState.Active ∨ p.bypassed = true)
    (hio : ∀ i j, i < p.info.numInputs → j < p.info.numOutputs → i ≠ j →
        ins.getD i 0 ≠ outs.getD j 0)
    (hoo : ∀ i j, i < p.info.numOutputs → j < p.info.numOutputs → i ≠ j →
        outs.getD i 0 ≠ outs.getD j 0)
    (hlen : ∀ i, i < p.info.numInputs → n ≤ (mem (ins.getD i 0)).length) :
    (p.processReplacing ins outs n mem beh).pluginCalled = false ∧
    ∀ ch, ch < p.info.numOutputs →
      (ch < p.info.numInputs →
        ((p.processReplacing ins outs n mem beh).mem (outs.getD ch 0)).take n
          = (mem (ins.getD ch 0)).take n) ∧
      (p.info.numInputs ≤ ch →
        ((p.processReplacing ins outs n mem beh).mem (outs.getD ch 0)).take n
          = List.replicate n 0) := by
  have hres : p.processReplacing ins outs n mem beh =
      ⟨p, passThroughCopy p.info.numInputs p.info.numOutputs ins outs n mem,
        false⟩ := by
    unfold PluginInstance.processReplacing
    rw [if_pos]
    rcases hbp with h | h
    · exact Or.inl h
    · exact Or.inr h
  rw [hres]
  exact ⟨rfl, fun ch hch =>
    passThroughCopy_channel p.info.numInputs p.info.numOutputs ins outs n mem
      hio hoo hlen ch hch⟩

/-- Witness for C2: a crashed (hence non-Active) stereo instance, two input
buffers (0, 1), two distinct output buffers (2, 3), four samples: the plugin
routine is not called, and output buffer 2 receives the samples of input
buffer 0. -/
theorem processReplacing_bypass_is_passthrough_witness :
    (crashedInstEx.processReplacing [0, 1] [2, 3] 4 memEx
        (PluginCallBehavior.normal id)).pluginCalled = false ∧
    ((crashedInstEx.processReplacing [0, 1] [2, 3] 4 memEx
        (PluginCallBehavior.normal id)).mem 2).take 4 = [10, 11, 12, 13] := by
  have h := processReplacing_bypass_is_passthrough crashedInstEx [0, 1] [2, 3]
      4 memEx (PluginCallBehavior.normal id)
      (Or.inl (by decide))
      (by
        intro i j hi hj hne
        have hi2 : i < 2 := hi
        have hj2 : j < 2 := hj
        interval_cases i <;> interval_cases j <;>
          first
            | exact absurd rfl hne
            | decide)
      (by
        intro i j hi hj hne
        have hi2 : i < 2 := hi
        have hj2 : j < 2 := hj
        interval_cases i <;> interval_cases j <;>
          first
            | exact absurd rfl hne
            | decide)
      (by
        intro i hi
        have hi2 : i < 2 := hi
        interval_cases i <;> decide)
  exact ⟨h.1, ((h.2 0 (by decide)).1 (by decide)).trans (by decide)⟩

/-! ## Association-list helper lemmas -/

theorem mapErase_cons_eq (k1 : Nat) (v1 : PluginInstance)
    (es : List (Nat × PluginInstance)) (k : Nat) (h : k1 = k) :
    mapErase ((k1, v1) :: es) k = mapErase es k := by
  simp [mapErase, List.filter_cons, h]

theorem mapErase_cons_ne (k1 : Nat) (v1 : PluginInstance)
    (es : List (Nat × PluginInstance)) (k : Nat) (h : ¬ k1 = k) :
    mapErase ((k1, v1) :: es) k = (k1, v1) :: mapErase es k := by
  simp [mapErase, List.filter_cons, h]

theorem lookup_mapErase_self (m : List (Nat × PluginInstance)) (k : Nat) :
    (mapErase m k).lookup k = none := by
  induction m with
  | nil => rfl
  | cons e es ih =>
      obtain ⟨k1, v1⟩ := e
      by_cases h : k1 = k
      · rw [mapErase_cons_eq k1 v1 es k h]
        exact ih
      · rw [mapErase_cons_ne k1 v1 es k h, List.lookup_cons]
        have hk : (k == k1) = false := by simp [Ne.symm h]
        rw [hk]
        exact ih

theorem lookup_mapErase_ne (m : List (Nat × PluginInstance)) (k q : Nat)
    (h : q ≠ k) : (mapErase m k).lookup q = m.lookup q := by
  induction m with
  | nil => rfl
  | cons e es ih =>
      obtain ⟨k1, v1⟩ := e
      by_cases h1 : k1 = k
      · rw [mapErase_cons_eq k1 v1 es k h1, List.lookup_cons]
        have hq : (q == k1) = false := by simp [h1, h]
        rw [hq]
        exact ih
      · rw [mapErase_cons_ne k1 v1 es k h1, List.lookup_cons, List.lookup_cons]
        by_cases h2 : q = k1
        · simp [h2]
        · have hq : (q == k1) = false := by simp [h2]
          rw [hq]
          exact ih

theorem lookup_mapInsert_self (m : List (Nat × PluginInstance)) (k : Nat)
    (v : PluginInstance) : (mapInsert m k v).lookup k = some v := by
  rw [mapInsert, List.lookup_cons]
  simp

/-! ## insertIdx helper lemmas -/

theorem insertIdx_perm_cons {α : Type} (a : α) (l : List α) (n : Nat)
    (hn : n ≤ l.length) : (l.insertIdx n a).Perm (a :: l) := by
  induction l generalizing n with
  | nil =>
      have : n = 0 := by simpa using hn
      subst this
      simp
  | cons b bs ih =>
      cases n with
      | zero => simp
      | succ n =>
          rw [List.insertIdx_succ_cons]
          exact ((ih n (by simpa using hn)).cons b).trans
            (List.Perm.swap a b bs)

theorem nodup_insertIdx_of_not_mem {α : Type} (a : α) (l : List α) (n : Nat)
    (hn : n ≤ l.length) (hl : l.Nodup) (ha : a ∉ l) :
    (l.insertIdx n a).Nodup :=
  (insertIdx_perm_cons a l n hn).nodup_iff.mpr (List.nodup_cons.mpr ⟨ha, hl⟩)

/-! ## loadPlugin helper lemmas -/

/-- The in-process scan never reports a plugin as VST2: a `.vst3` file is
typed `VST3`, a `.dll` is typed `Unknown`, and nothing else validates. -/
theorem scanPluginInProcess_shape (fs : FileSystem) (path : String) :
    (scanPluginInProcess fs path).1 = false ∨
    (scanPluginInProcess fs path).2.type = PluginType.VST3 ∨
    (scanPluginInProcess fs path).2.type = PluginType.Unknown := by
  unfold scanPluginInProcess
  by_cases h1 : pathExtensionLower path = ".vst3" ∨ pathExtensionLower path = ".dll"
  · rw [if_pos h1]
    by_cases h2 : fs.moduleLoadable path = true
    · rw [if_pos h2]
      right
      by_cases h3 : pathExtensionLower path = ".vst3"
      · left; simp [h3]
      · right; simp [h3]
    · rw [if_neg h2]
      left; rfl
  · rw [if_neg h1]
    left; rfl

/-- `EnhancedVSTHost::loadPlugin` can never succeed: the scan types every
candidate as `VST3` or `Unknown`, `loadVST3` is a stub returning `false`,
and `load()` dispatches no other branch — so every call fails and the host
state (instance map, chain, `nextPluginId`) is left untouched. -/
theorem hostLoadPlugin_fails (s : HostState) (fs : FileSystem)
    (vst2 : Vst2LoadOutcome) (path : String) :
    (hostLoadPlugin s fs vst2 path).host = s ∧
    (hostLoadPlugin s fs vst2 path).ok = false ∧
    ((hostLoadPlugin s fs vst2 path).events = [] ∨
      (hostLoadPlugin s fs vst2 path).events = [LoadEvent.loadAttempt]) := by
  unfold hostLoadPlugin
  by_cases hb : s.blacklisted.contains path = true
  · rw [if_pos hb]; exact ⟨rfl, rfl, Or.inl rfl⟩
  · rw [if_neg hb]
    by_cases hv : validatePlugin fs path = true
    · rw [if_neg (by simp [hv])]
      have hshape := scanPluginInProcess_shape fs path
      rcases hscan : scanPluginInProcess fs path with ⟨ok, info⟩
      rw [hscan] at hshape
      cases ok with
      | false => exact ⟨rfl, rfl, Or.inl rfl⟩
      | true =>
          have htype : info.type = PluginType.VST3 ∨ info.type = PluginType.Unknown := by
            rcases hshape with h | h
            · exact absurd h (by simp)
            · exact h
          have hload : ((PluginInstance.make info).load vst2).2 = false := by
            rcases htype with h | h <;>
              simp [PluginInstance.load, PluginInstance.make, h]
          simp [hload]
    · rw [if_pos (by simp [Bool.not_eq_true] at hv ⊢; exact hv)]
      exact ⟨rfl, rfl, Or.inl rfl⟩

/-! ## ChainOK preservation lemmas -/

theorem chainOK_initial (bl : List String) : ChainOK (initialHost bl) :=
  ⟨fun pid h => absurd h (List.not_mem_nil pid), List.nodup_nil⟩

theorem chainOK_unload (s : HostState) (pid : Nat) (cf : Bool)
    (h : ChainOK s) : ChainOK (hostUnloadPlugin s pid cf) := by
  obtain ⟨hmem, hnd⟩ := h
  constructor
  · intro q hq
    have hq0 : q ∈ s.pluginChain.erase pid := hq
    have hqc : q ∈ s.pluginChain := List.mem_of_mem_erase hq0
    have hqne : q ≠ pid := ((List.Nodup.mem_erase_iff hnd).1 hq0).1
    show (((hostUnloadPlugin s pid cf).loadedPlugins).lookup q).isSome = true
    unfold hostUnloadPlugin
    rcases hl : s.loadedPlugins.lookup pid with _ | inst
    · simpa [hl] using hmem q hqc
    · simpa [hl, lookup_mapErase_ne _ _ _ hqne] using hmem q hqc
  · exact List.Nodup.erase pid hnd

theorem chainOK_unloadAll (s : HostState) : ChainOK (hostUnloadAll s) :=
  ⟨fun pid h => absurd h (List.not_mem_nil pid), List.nodup_nil⟩

theorem chainOK_add (s : HostState) (pid : Nat) (h : ChainOK s) :
    ChainOK (hostAddToChain s pid) := by
  obtain ⟨hmem, hnd⟩ := h
  unfold hostAddToChain
  split
  case isTrue hcond =>
    rw [Bool.and_eq_true] at hcond
    obtain ⟨h1, h2⟩ := hcond
    have hnotmem : pid ∉ s.pluginChain := by
      simpa using h2
    constructor
    · intro q hq
      rcases List.mem_append.1 hq with hq1 | hq2
      · exact hmem q hq1
      · rw [List.mem_singleton] at hq2
        subst hq2
        exact h1
    · rw [List.nodup_append]
      refine ⟨hnd, List.nodup_singleton pid, ?_⟩
      intro a ha hb
      rw [List.mem_singleton] at hb
      subst hb
      exact hnotmem ha
  case isFalse _ => exact ⟨hmem, hnd⟩

theorem chainOK_remove (s : HostState) (pid : Nat) (h : ChainOK s) :
    ChainOK (hostRemoveFromChain s pid) := by
  obtain ⟨hmem, hnd⟩ := h
  constructor
  · intro q hq
    exact hmem q (List.mem_of_mem_erase hq)
  · exact List.Nodup.erase pid hnd

theorem chainOK_move (s : HostState) (pid : Nat) (newPos : Int)
    (h : ChainOK s) : ChainOK (hostMoveInChain s pid newPos) := by
  obtain ⟨hmem, hnd⟩ := h
  simp only [hostMoveInChain]
  split
  case isTrue hin =>
    have hpidmem : pid ∈ s.pluginChain := by
      simpa using hin
    have hlook := hmem pid hpidmem
    have hndc : (s.pluginChain.erase pid).Nodup := List.Nodup.erase pid hnd
    have hnotin : pid ∉ s.pluginChain.erase pid := by
      intro hx
      exact ((List.Nodup.mem_erase_iff hnd).1 hx).1 rfl
    split
    case isTrue hrange =>
      obtain ⟨hge, hle⟩ := hrange
      have hlen : newPos.toNat ≤ (s.pluginChain.erase pid).length :=
        Int.toNat_le.mpr hle
      constructor
      · intro q hq
        rcases (List.mem_insertIdx hlen).1 hq with rfl | hq2
        · exact hlook
        · exact hmem q (List.mem_of_mem_erase hq2)
      · exact nodup_insertIdx_of_not_mem pid _ _ hlen hndc hnotin
    case isFalse _ =>
      constructor
      · intro q hq
        rcases List.mem_append.1 hq with hq1 | hq2
        · exact hmem q (List.mem_of_mem_erase hq1)
        · rw [List.mem_singleton] at hq2
          subst hq2
          exact hlook
      · rw [List.nodup_append]
        refine ⟨hndc, List.nodup_singleton pid, ?_⟩
        intro a ha hb
        rw [List.mem_singleton] at hb
        subst hb
        exact hnotin ha
  case isFalse _ => exact ⟨hmem, hnd⟩

/-! ## C4 — the chain invariant -/

/-- C4: in every state reachable by the public host operations, every ID in
the chain resolves in the instance map and the chain has no duplicates; and
from any such state, `unloadPlugin(pid)` removes `pid` from both the map and
the chain within the same operation. -/
theorem chain_resolvable_invariant (s : HostState) (h : Reachable s) :
    ChainOK s ∧
    ∀ pid cf,
      (hostUnloadPlugin s pid cf).loadedPlugins.lookup pid = none ∧
      pid ∉ (hostUnloadPlugin s pid cf).pluginChain := by
  have hok : ChainOK s := by
    induction h with
    | init bl => exact chainOK_initial bl
    | load s0 fs vst2 path _ ih =>
        rw [(hostLoadPlugin_fails s0 fs vst2 path).1]
        exact ih
    | unload s0 pid cf _ ih => exact chainOK_unload s0 pid cf ih
    | unloadAll s0 _ _ => exact chainOK_unloadAll s0
    | add s0 pid _ ih => exact chainOK_add s0 pid ih
    | remove s0 pid _ ih => exact chainOK_remove s0 pid ih
    | move s0 pid np _ ih => exact chainOK_move s0 pid np ih
  refine ⟨hok, fun pid cf => ⟨?_, ?_⟩⟩
  · show ((hostUnloadPlugin s pid cf).loadedPlugins).lookup pid = none
    unfold hostUnloadPlugin
    rcases hl : s.loadedPlugins.lookup pid with _ | inst
    · simp [hl]
    · simp [hl, lookup_mapErase_self]
  · intro hmem
    have hm2 : pid ∈ s.pluginChain.erase pid := hmem
    exact ((List.Nodup.mem_erase_iff hok.2).1 hm2).1 rfl

/-- Witness for C4 at the freshly initialised host and a concrete ID. -/
theorem chain_resolvable_invariant_witness :
    ChainOK (initialHost []) ∧
    (hostUnloadPlugin (initialHost []) 7 false).loadedPlugins.lookup 7 = none ∧
    7 ∉ (hostUnloadPlugin (initialHost []) 7 false).pluginChain := by
  have h := chain_resolvable_invariant (initialHost []) (Reachable.init [])
  exact ⟨h.1, (h.2 7 false).1, (h.2 7 false).2⟩

/-! ## C7 — invalid loads are rejected before any load attempt -/

/-- C7: a blacklisted path, a nonexistent path, or a path with the wrong
extension makes `loadPlugin` return failure with no load attempt made, no ID
allocated and the host state (map, chain, counter) unchanged. -/
theorem loadPlugin_rejects_invalid (s : HostState) (fs : FileSystem)
    (vst2 : Vst2LoadOutcome) (path : String)
    (h : s.blacklisted.contains path = true ∨ fs.fileExists path = false ∨
        (pathExtensionLower path ≠ ".dll" ∧ pathExtensionLower path ≠ ".vst3")) :
    (hostLoadPlugin s fs vst2 path).ok = false ∧
    (hostLoadPlugin s fs vst2 path).host = s ∧
    (hostLoadPlugin s fs vst2 path).events = [] := by
  unfold hostLoadPlugin
  by_cases hb : s.blacklisted.contains path = true
  · rw [if_pos hb]
    exact ⟨rfl, rfl, rfl⟩
  · rw [if_neg hb]
    have hval : validatePlugin fs path = false := by
      rcases h with h | h | h
      · exact absurd h hb
      · simp [validatePlugin, h]
      · unfold validatePlugin
        by_cases hex : fs.fileExists path = true
        · simp [hex, h.1, h.2]
        · simp [hex]
    rw [if_pos (by simp [hval])]
    exact ⟨rfl, rfl, rfl⟩

/-- Witness for C7: a nonexistent path on an empty file system is rejected
with the host untouched. -/
theorem loadPlugin_rejects_invalid_witness :
    (hostLoadPlugin (initialHost []) fsNo Vst2LoadOutcome.ok
        "C:\\missing.dll").ok = false ∧
    (hostLoadPlugin (initialHost []) fsNo Vst2LoadOutcome.ok
        "C:\\missing.dll").host = initialHost [] ∧
    (hostLoadPlugin (initialHost []) fsNo Vst2LoadOutcome.ok
        "C:\\missing.dll").events = [] :=
  loadPlugin_rejects_invalid (initialHost []) fsNo Vst2LoadOutcome.ok
    "C:\\missing.dll" (Or.inr (Or.inl rfl))

/-! ## C10 — getPluginInfo on an unknown ID -/

/-- C10: for an ID not present in the instance map, `getPluginInfo` returns
the value-initialised `PluginInfo` — `validated` false, empty path and name —
and leaves the host state unchanged, signalling no error. -/
theorem getPluginInfo_unknown_id (s : HostState) (pid : Nat)
    (h : s.loadedPlugins.lookup pid = none) :
    hostGetPluginInfo s pid = (PluginInfo.valueInit, s) ∧
    (hostGetPluginInfo s pid).1.validated = false ∧
    (hostGetPluginInfo s pid).1.path = "" ∧
    (hostGetPluginInfo s pid).1.name = "" := by
  have hres : hostGetPluginInfo s pid = (PluginInfo.valueInit, s) := by
    unfold hostGetPluginInfo
    rw [h]
  exact ⟨hres, by rw [hres]; rfl, by rw [hres]; rfl, by rw [hres]; rfl⟩

/-- Witness for C10 at a host that has only plugin 1 loaded, queried for
the absent ID 2. -/
theorem getPluginInfo_unknown_id_witness :
    hostGetPluginInfo hostEx 2 = (PluginInfo.valueInit, hostEx) ∧
    (hostGetPluginInfo hostEx 2).1.validated = false ∧
    (hostGetPluginInfo hostEx 2).1.path = "" ∧
    (hostGetPluginInfo hostEx 2).1.name = "" :=
  getPluginInfo_unknown_id hostEx 2 (by decide)

/-! ## C3 — what loadPlugin actually returns -/

/-- C3: `loadPlugin` returns a `bool`, never a plugin ID, and in fact every
call fails (the scan types candidates as VST3 or Unknown and `load()`
succeeds for neither, `loadVST3` being a stub), so the ID counter never
advances, no ID is ever assigned, and the host state is unchanged — the
caller in main.cpp that treats the return value as an ID always sees 1. -/
theorem loadPlugin_returns_bool_never_id (s : HostState) (fs : FileSystem)
    (vst2 : Vst2LoadOutcome) (path : String) :
    (hostLoadPlugin s fs vst2 path).ok = false ∧
    (hostLoadPlugin s fs vst2 path).host = s ∧
    ∀ pid, LoadEvent.idAssigned pid ∉ (hostLoadPlugin s fs vst2 path).events := by
  obtain ⟨h1, h2, h3⟩ := hostLoadPlugin_fails s fs vst2 path
  refine ⟨h2, h1, ?_⟩
  intro pid hmem
  rcases h3 with h | h <;> rw [h] at hmem <;> simp at hmem

/-! ## C1 — a trapped fault during a cycle is never surfaced by the host -/

/-- C1: with plugin 1 active in the chain and its routine faulting during
cycle n, the instance does transition to `Crashed`, but the crash callback is
never invoked and the ID is not removed from the chain (the fault is trapped
inside `processReplacing`, which returns normally, so the audio callback's
`catch (const std::exception&)` never fires and `handlePluginCrash` is
unreachable); cycle n + 1 still iterates over the plugin and merely
passes audio through without calling its routine. -/
theorem crash_not_notified_not_removed :
    (let r1 := audioCycle hostEx faultBehEx [0, 1] [2, 3] 4 memEx
     let r2 := audioCycle r1.host faultBehEx [0, 1] [2, 3] 4 r1.mem
     ((r1.host.loadedPlugins.lookup 1).map PluginInstance.state
        = some PluginState.Crashed ∧
      r1.crashNotifs = [] ∧
      r1.host.pluginChain = [1] ∧
      r1.pluginRoutineCalls = [1]) ∧
     (r2.crashNotifs = [] ∧
      r2.host.pluginChain = [1] ∧
      r2.pluginRoutineCalls = [])) := by
  decide

/-! ## C5 — the scan runs in-process, not in a worker -/

/-- One scan step appends only progress / in-process-scan / reaper events. -/
theorem scanDirStep_events (fs : FileSystem) (total : Nat)
    (found : List PluginInfo) (evs : List ScanEvent) (cur : Nat)
    (path : String) :
    ∃ tail, (scanDirStep fs total (found, evs, cur) path).2.1 = evs ++ tail ∧
      (∀ q, ScanEvent.workerSpawn q ∉ tail) ∧
      ScanEvent.inProcessScan path ∈ tail := by
  simp only [scanDirStep]
  rcases scanPluginInProcess fs path with ⟨ok, info⟩
  by_cases hm : (cur + 1) % 10 = 0
  · refine ⟨[ScanEvent.progressReport (cur + 1) total path,
             ScanEvent.inProcessScan path, ScanEvent.reaperSweep], ?_, ?_, ?_⟩
    · simp [hm]
    · intro q hq
      simp at hq
    · simp
  · refine ⟨[ScanEvent.progressReport (cur + 1) total path,
             ScanEvent.inProcessScan path], ?_, ?_, ?_⟩
    · simp [hm]
    · intro q hq
      simp at hq
    · simp

/-- Folding scan steps never produces a worker-spawn event. -/
theorem scanFold_no_spawn (fs : FileSystem) (total : Nat)
    (files : List String) (acc : List PluginInfo × List ScanEvent × Nat)
    (q : String) (h : ScanEvent.workerSpawn q ∉ acc.2.1) :
    ScanEvent.workerSpawn q ∉ (files.foldl (scanDirStep fs total) acc).2.1 := by
  induction files generalizing acc with
  | nil => exact h
  | cons f fsx ih =>
      rw [List.foldl_cons]
      apply ih
      obtain ⟨found, evs, cur⟩ := acc
      obtain ⟨tail, htail, hsp, _⟩ := scanDirStep_events fs total found evs cur f
      rw [htail]
      intro hmem
      rcases List.mem_append.1 hmem with h1 | h2
      · exact h h1
      · exact hsp q h2

/-- Events only accumulate across scan steps. -/
theorem scanFold_events_mono (fs : FileSystem) (total : Nat)
    (files : List String) (acc : List PluginInfo × List ScanEvent × Nat)
    (q : ScanEvent) (h : q ∈ acc.2.1) :
    q ∈ (files.foldl (scanDirStep fs total) acc).2.1 := by
  induction files generalizing acc with
  | nil => exact h
  | cons f fsx ih =>
      rw [List.foldl_cons]
      apply ih
      obtain ⟨found, evs, cur⟩ := acc
      obtain ⟨tail, htail, _, _⟩ := scanDirStep_events fs total found evs cur f
      rw [htail]
      exact List.mem_append.2 (Or.inl h)

/-- Every file of the list receives an in-process scan during the fold. -/
theorem scanFold_scans_all (fs : FileSystem) (total : Nat)
    (files : List String) (f : String) (hf : f ∈ files)
    (acc : List PluginInfo × List ScanEvent × Nat) :
    ScanEvent.inProcessScan f ∈ (files.foldl (scanDirStep fs total) acc).2.1 := by
  induction hf generalizing acc with
  | head rest =>
      rw [List.foldl_cons]
      apply scanFold_events_mono
      obtain ⟨found, evs, cur⟩ := acc
      obtain ⟨tail, htail, _, hin⟩ := scanDirStep_events fs total found evs cur f
      rw [htail]
      exact List.mem_append.2 (Or.inr hin)
  | tail g hmem ih =>
      rw [List.foldl_cons]
      exact ih _

/-- C5: `scanDirectory` spawns no worker process for any candidate — every
candidate file is scanned in-process (the out-of-process machinery
`launchScannerProcess` / `readScanResult` and the 5000 ms reaper exist but
the scan path never invokes them on a job). -/
theorem scanDirectory_scans_in_process (fs : FileSystem) (files : List String) :
    (∀ q, ScanEvent.workerSpawn q ∉ (scanDirectory fs files).events) ∧
    (∀ f, f ∈ files →
      ScanEvent.inProcessScan f ∈ (scanDirectory fs files).events) := by
  constructor
  · intro q hmem
    have hm2 : ScanEvent.workerSpawn q ∈
        (files.foldl (scanDirStep fs files.length) ([], [], 0)).2.1
          ++ [ScanEvent.reaperSweep] := hmem
    rcases List.mem_append.1 hm2 with h1 | h2
    · exact scanFold_no_spawn fs files.length files ([], [], 0) q
        (by simp) h1
    · simp at h2
  · intro f hf
    show ScanEvent.inProcessScan f ∈
      (files.foldl (scanDirStep fs files.length) ([], [], 0)).2.1
        ++ [ScanEvent.reaperSweep]
    exact List.mem_append.2
      (Or.inl (scanFold_scans_all fs files.length files f hf ([], [], 0)))

/-- Witness for C5 at a one-file directory. -/
theorem scanDirectory_scans_in_process_witness :
    ScanEvent.workerSpawn "C:\\Plugins\\Gain.dll"
        ∉ (scanDirectory fsYes ["C:\\Plugins\\Gain.dll"]).events ∧
    ScanEvent.inProcessScan "C:\\Plugins\\Gain.dll"
        ∈ (scanDirectory fsYes ["C:\\Plugins\\Gain.dll"]).events :=
  ⟨(scanDirectory_scans_in_process fsYes ["C:\\Plugins\\Gain.dll"]).1 _,
   (scanDirectory_scans_in_process fsYes ["C:\\Plugins\\Gain.dll"]).2 _
     (List.mem_singleton.mpr rfl)⟩

/-! ## C9 — bridge shutdown -/

/-- C9: with a live helper process and open pipes, `shutdown()` first writes
`EXIT`, then waits the 5000 ms grace period, force-terminates exactly when
the helper has not exited in time, closes the process handle and then each
pipe handle, nulls all three, and a repeated `shutdown()` performs nothing. -/
theorem bridgeShutdown_orderly (b : BridgeState) (pn cn dn : Nat) (ex : Bool)
    (hp : b.bridgeProcess = some pn) (hc : b.commandPipe = some cn)
    (hd : b.dataPipe = some dn) :
    (bridgeShutdown b ex).2 =
      [BridgeEvent.cmdWritten "EXIT\n", BridgeEvent.waitForExit 5000] ++
        (if ex then [] else [BridgeEvent.forceTerminated]) ++
        [BridgeEvent.processHandleClosed, BridgeEvent.pipeHandleClosed cn,
         BridgeEvent.pipeHandleClosed dn] ∧
    (bridgeShutdown b ex).1 = ⟨none, none, none⟩ ∧
    ∀ ex2, bridgeShutdown (bridgeShutdown b ex).1 ex2 = (⟨none, none, none⟩, []) := by
  unfold bridgeShutdown bridgeSendCommand
  rw [hp, hc, hd]
  refine ⟨?_, rfl, fun ex2 => rfl⟩
  cases ex <;> rfl

/-- Witness for C9 with concrete handles and a helper that ignores `EXIT`. -/
theorem bridgeShutdown_orderly_witness :
    (bridgeShutdown ⟨some 1, some 2, some 3⟩ false).2 =
      [BridgeEvent.cmdWritten "EXIT\n", BridgeEvent.waitForExit 5000] ++
        (if false then [] else [BridgeEvent.forceTerminated]) ++
        [BridgeEvent.processHandleClosed, BridgeEvent.pipeHandleClosed 2,
         BridgeEvent.pipeHandleClosed 3] ∧
    (bridgeShutdown ⟨some 1, some 2, some 3⟩ false).1 = ⟨none, none, none⟩ ∧
    bridgeShutdown (bridgeShutdown ⟨some 1, some 2, some 3⟩ false).1 true
      = (⟨none, none, none⟩, []) := by
  have h := bridgeShutdown_orderly ⟨some 1, some 2, some 3⟩ 1 2 3 false
    rfl rfl rfl
  exact ⟨h.1, h.2.1, h.2.2 true⟩
